import Mathlib

/-!
Shallow embedding of the brand-research pipeline (`src/main_agent.py`,
`src/modules/providers.py`, `src/modules/crawler.py`,
`src/modules/llm_services.py`, `src/modules/utils.py`).

External effects (HTTP fetches, the two search providers, the LLM, the
e-commerce scraper, environment variables) are modelled as oracles packed
into `World` structures; every function of the source that the claims
touch is translated into a total Lean function over those oracles.
Python dicts with free-form string keys are modelled as association
lists; duck-typed JSON values are modelled by `PyVal`.
-/

/-- Association-list model of a Python `dict` with string keys and
string values (used for the result/evidence metadata dicts). -/
abbrev Dict := List (String × String)

/-- `d.get(k)`: first binding of `k`, if any. -/
def dget (d : Dict) (k : String) : Option String :=
  (d.find? (fun kv => kv.1 == k)).map (·.2)

/-- `{**d, k: v}`: replace any binding of `k` by `v` (appended last). -/
def dset (d : Dict) (k : String) (v : String) : Dict :=
  d.filter (fun kv => kv.1 != k) ++ [(k, v)]

/-!
String primitives. The kernel cannot reduce the core `String` loops
(`split`, `splitOn`, `takeWhile`, `replace`, ...), so every string
operation the embedding needs is (re)implemented structurally over
`List Char`, which evaluates by `decide`/`rfl` on concrete inputs.
-/

/-- Whitespace-separated words of a char list (Python `str.split()`). -/
def wordsAux (acc : List Char) : List Char → List (List Char)
  | [] => if acc.isEmpty then [] else [acc.reverse]
  | c :: cs =>
    if c.isWhitespace then
      if acc.isEmpty then wordsAux [] cs else acc.reverse :: wordsAux [] cs
    else wordsAux (c :: acc) cs

/-- Collapse every whitespace run to a single blank and strip the ends.
This is the common meaning of `utils._clean` (`re.sub(r"\s+", " ",
s.strip())`) and of `providers._sanitize_query`
(`" ".join(q.replace("\n", " ").split())`). -/
def pyCollapseWs (s : String) : String :=
  String.mk (List.intercalate [' '] (wordsAux [] s.toList))

/-- `utils._clean`. -/
def _clean (s : String) : String := pyCollapseWs s

/-- `providers._sanitize_query`. -/
def _sanitize_query (q : String) : String := pyCollapseWs q

/-- Fuel-driven splitter on a non-empty separator; the fuel is set to
(length + 1), at least one char is consumed per step, so it never runs
out. -/
def splitOnFuel (sep : List Char) : Nat → List Char → List Char → List (List Char)
  | 0, rest, acc => [acc.reverse ++ rest]
  | _ + 1, [], acc => [acc.reverse]
  | fuel + 1, c :: cs, acc =>
    if sep.isPrefixOf (c :: cs) then
      acc.reverse :: splitOnFuel sep fuel (cs.drop (sep.length - 1)) []
    else splitOnFuel sep fuel cs (c :: acc)

/-- `s.split(sep)` / Lean `String.splitOn`: split on every occurrence
of `sep`, `[s]` when the separator is empty. -/
def splitOnS (s sep : String) : List String :=
  if sep.toList.isEmpty then [s]
  else (splitOnFuel sep.toList (s.toList.length + 1) s.toList []).map String.mk

/-- Fuel-driven replacement of every occurrence of `pat` by `rep`. -/
def replaceFuel (pat rep : List Char) : Nat → List Char → List Char
  | 0, rest => rest
  | _ + 1, [] => []
  | fuel + 1, c :: cs =>
    if pat.isPrefixOf (c :: cs) then rep ++ replaceFuel pat rep fuel (cs.drop (pat.length - 1))
    else c :: replaceFuel pat rep fuel cs

/-- `s.replace(pat, rep)` for a non-empty pattern. -/
def replaceS (s pat rep : String) : String :=
  if pat.toList.isEmpty then s
  else String.mk (replaceFuel pat.toList rep.toList (s.toList.length + 1) s.toList)

/-- `str.lower()` (ASCII case folding; Hangul has no case). -/
def strLower (s : String) : String := String.mk (s.toList.map Char.toLower)

/-- Longest prefix of chars satisfying `p`. -/
def takeWhileS (s : String) (p : Char → Bool) : String :=
  String.mk (s.toList.takeWhile p)

/-- Remainder after `takeWhileS`. -/
def dropWhileS (s : String) (p : Char → Bool) : String :=
  String.mk (s.toList.dropWhile p)

/-- `s.rstrip(set)`-style removal of trailing chars satisfying `p`. -/
def dropRightWhileS (s : String) (p : Char → Bool) : String :=
  String.mk ((s.toList.reverse.dropWhile p).reverse)

/-- Python `s.startswith(pre)`. -/
def pyStartswith (s pre : String) : Bool := pre.toList.isPrefixOf s.toList

/-- `sep.join(parts)`. -/
def joinWith (sep : String) (parts : List String) : String :=
  String.mk (List.intercalate sep.toList (parts.map String.toList))

/-- Stable insertion of `x` (arriving after every element of the list
in the original order) into a descending-by-key sorted list. -/
def insertByDesc (key : α → Int) (x : α) : List α → List α
  | [] => [x]
  | y :: ys => if key y < key x then x :: y :: ys else y :: insertByDesc key x ys

/-- Stable descending sort by an integer key — the behaviour of
Python's `sorted(l, key=..., reverse=True)`. -/
def sortByDesc (key : α → Int) (l : List α) : List α :=
  l.foldl (fun acc x => insertByDesc key x acc) []

/-- Split a URL at the first `"://"`: `some (scheme, rest)`, or `none`
when the separator is absent (then `urllib.parse` sees no netloc). -/
def urlSchemeSplit (u : String) : Option (String × String) :=
  match splitOnS u "://" with
  | [] => none
  | [_] => none
  | s :: rest => some (s, joinWith "://" rest)

/-- `urlparse(u).netloc`: the part after `"://"` up to the first
`'/'`, `'?'` or `'#'`; empty when the URL has no scheme separator. -/
def urlNetloc (u : String) : String :=
  match urlSchemeSplit u with
  | none => ""
  | some (_, rest) => takeWhileS rest (fun c => !(c == '/' || c == '?' || c == '#'))

/-- `urlparse(u).path` (query and fragment stripped). -/
def urlPath (u : String) : String :=
  match urlSchemeSplit u with
  | none => takeWhileS u (fun c => !(c == '?' || c == '#'))
  | some (_, rest) =>
    takeWhileS (dropWhileS rest (fun c => !(c == '/' || c == '?' || c == '#')))
      (fun c => !(c == '?' || c == '#'))

/-- `f"{parsed.scheme}://{parsed.netloc}"` — the origin string the
crawler uses as its base, and the scheme+host origin of a URL. -/
def urlOrigin (u : String) : String :=
  (match urlSchemeSplit u with | none => "" | some (s, _) => s) ++ "://" ++ urlNetloc u

/-- Python's substring test `pat in s` (always true for `pat = ""`). -/
def hasSubstr (s pat : String) : Bool :=
  pat.toList.isEmpty || (splitOnS s pat).length != 1

/-- Duck-typed JSON/Python value (the shapes the embedded code probes). -/
inductive PyVal where
  | pnull : PyVal
  | pbool : Bool → PyVal
  | pnum : Int → PyVal
  | pstr : String → PyVal
deriving DecidableEq, Repr

/-- Association-list model of an LLM-returned JSON object. -/
abbrev PyDict := List (String × PyVal)

/-- Python truthiness of a `PyVal`. -/
def pyTruthy : PyVal → Bool
  | .pnull => false
  | .pbool b => b
  | .pnum n => n != 0
  | .pstr s => s != ""

/-- `d.get(k)` on a JSON object. -/
def pyGet (d : PyDict) (k : String) : Option PyVal :=
  (d.find? (fun kv => kv.1 == k)).map (·.2)

/-- Truthiness of an optional string (`None` and `""` are falsy). -/
def optTruthy : Option String → Bool
  | none => false
  | some s => s != ""

/-- Oracle for `utils.fetch` composed with `utils.extract_text`:
`.error e` models an exception raised by the request (message `e`),
`.ok t` models a successful fetch whose extracted text is `t`. -/
structure FetchWorld where
  fetchText : String → Except String String

/-- `main_agent.fetch_evidence` (src/main_agent.py lines 45-51). -/
def fetch_evidence (w : FetchWorld) (meta : Dict) : Dict :=
  match w.fetchText ((dget meta "url").getD "") with
  | .error e => dset (dset meta "content" "") "error" e
  | .ok text =>
    if text == "" || text.length < 150 then
      dset (dset meta "content" "") "error" "short"
    else
      dset meta "content" (_clean text)

/-- One raw result of `ddgs.text(...)` (fields read via `.get`). -/
structure DdgRaw where
  title : Option String
  href : Option String
deriving DecidableEq, Repr

/-- One raw entry of a Tavily response's `results` list. -/
structure TavRaw where
  title : Option String
  url : Option String
  content : Option String
deriving DecidableEq, Repr

/-- A collected result dict `{title, url, source[, content]}`; ddg items
carry no `content` key (`none`), Tavily items do. -/
structure SearchItem where
  title : String
  url : String
  source : String
  content : Option String
deriving DecidableEq, Repr

/-- Oracles for `modules/providers.py`: the environment, one call of
`ddgs.text(query, region="kr-kr", max_results=cap, timelimit=tl)`
(`.error` = the per-query exception the source catches), and one call of
`TavilyClient.search(query, search_depth="advanced", topic, max_results)`
(`.error` = the exception that aborts the whole Tavily batch). -/
structure ProviderWorld where
  env : String → Option String
  ddgText : String → Nat → Option String → Except String (List DdgRaw)
  tavilySearch : String → Nat → String → Except String (List TavRaw)

/-- Inner accumulation of `ddg_collect` for one query's results:
`if href and href not in seen: seen.add(href); items.append(...)`. -/
def ddgAbsorb (st : List SearchItem × List String) (rs : List DdgRaw) :
    List SearchItem × List String :=
  rs.foldl
    (fun st r =>
      match r.href with
      | none => st
      | some href =>
        if href == "" || st.2.contains href then st
        else (st.1 ++ [⟨r.title.getD "", href, urlNetloc href, none⟩], st.2 ++ [href]))
    st

/-- `providers.ddg_collect` (lines 9-25): per-query exceptions are
caught and skipped; dedup across the batch by href. -/
def ddg_collect (w : ProviderWorld) (qs : List String) (per_query_cap : Nat)
    (timelimit : Option String) : List SearchItem :=
  (qs.foldl
    (fun st q =>
      let q := _sanitize_query q
      if q == "" then st
      else
        match w.ddgText q per_query_cap timelimit with
        | .error _ => st
        | .ok results => ddgAbsorb st results)
    ([], [])).1

/-- Inner accumulation of `tavily_collect` for one query's results. -/
def tavilyAbsorb (st : List SearchItem × List String) (rs : List TavRaw) :
    List SearchItem × List String :=
  rs.foldl
    (fun st r =>
      match r.url with
      | none => st
      | some href =>
        if href == "" || st.2.contains href then st
        else (st.1 ++ [⟨r.title.getD "", href, urlNetloc href, some (r.content.getD "")⟩],
              st.2 ++ [href]))
    st

/-- Query loop of `tavily_collect`; `none` models the exception that
makes the surrounding `try` return `[]` (the whole batch is discarded). -/
def tavilyLoop (w : ProviderWorld) (per_query_cap : Nat) (topic : String) :
    List String → List SearchItem → List String → Option (List SearchItem)
  | [], acc, _ => some acc
  | q :: qs, acc, seen =>
    let q := _sanitize_query q
    if q == "" then tavilyLoop w per_query_cap topic qs acc seen
    else
      match w.tavilySearch q per_query_cap topic with
      | .error _ => none
      | .ok results =>
        let st := tavilyAbsorb (acc, seen) results
        tavilyLoop w per_query_cap topic qs st.1 st.2

/-- `providers.tavily_collect` (lines 27-49): `[]` without the
`TAVILY_API_KEY` environment variable, `[]` on any exception. -/
def tavily_collect (w : ProviderWorld) (qs : List String) (per_query_cap : Nat)
    (topic : String) : List SearchItem :=
  if ((w.env "TAVILY_API_KEY").getD "") == "" then []
  else (tavilyLoop w per_query_cap topic qs [] []).getD []

/-- `_merge` inside `provider_collect`: append secondary items whose URL
was not already seen among the primary items (seen set is fixed). -/
def providerMerge (primary secondary : List SearchItem) : List SearchItem :=
  let seen_urls := primary.map (·.url)
  primary ++ secondary.filter (fun item => !(seen_urls.contains item.url))

/-- `providers.provider_collect` (lines 51-67). Note the source gates
the Tavily path on the differently-cased `Tavily_API_KEY` variable. -/
def provider_collect (w : ProviderWorld) (preferred_provider : String)
    (qs : List String) (per_query_cap : Nat) (min_keep_threshold : Nat)
    (timelimit : Option String) (topic : String) : List SearchItem :=
  if preferred_provider == "tavily" && ((w.env "Tavily_API_KEY").getD "") != "" then
    let primary_results := tavily_collect w qs per_query_cap topic
    if primary_results.length < min_keep_threshold then
      providerMerge primary_results (ddg_collect w qs per_query_cap timelimit)
    else primary_results
  else ddg_collect w qs per_query_cap timelimit

/-- One page dict appended by the crawler. The source appends
`{"url": u, "text": _clean(text), "html": html}`; the `prices` field
models `page.get("prices", [])` as read by `analyze_price_range` — the
crawler never writes that key, so it is always `[]` on crawled pages. -/
structure CrawlPage where
  url : String
  text : String
  html : String
  prices : List Int
deriving DecidableEq, Repr

/-- Oracles for `modules/crawler.py`: `page u = some (html, text, links)`
models a successful `fetch(u)` + `extract_text` + link extraction, where
`links` lists `urljoin(u, a["href"]).split("#")[0]` for each anchor in
document order; `none` models an exception (caught by the crawler).
`linkScore url industry` models `utils._score_url_for_crawl`, whose
keyword tables live in the repository's `config.py` (not under `src/`),
so it stays an oracle. -/
structure CrawlWorld where
  page : String → Option (String × String × List String)
  linkScore : String → String → Int

/-- Loop of `crawler.crawl_site` (lines 14-36), with an explicit queue,
visited-set `seen`, collected `pages`, and a `visited` trace recording
each URL passed to `fetch` (in order). The `fuel` argument only bounds
the number of iterations so the recursion is structural: every
iteration strictly decreases `11·(max_pages − |pages|) + |queue|`
(a success pops one URL, adds one page and enqueues at most 10 links;
every other case just pops), so the initial fuel `11·max_pages + 1`
supplied by `crawl_site` is never exhausted and the loop behaves
exactly like the source's `while` loop. -/
def crawlGo (w : CrawlWorld) (industry base : String) (max_pages : Nat) :
    Nat → List String → List String → List CrawlPage → List String →
    List CrawlPage × List String
  | _, [], _, pages, visited => (pages, visited)
  | 0, _ :: _, _, pages, visited => (pages, visited)
  | fuel + 1, u :: rest, seen, pages, visited =>
    if pages.length < max_pages then
      if seen.contains u then
        crawlGo w industry base max_pages fuel rest seen pages visited
      else
        let seen' := u :: seen
        if !(pyStartswith u base) then
          crawlGo w industry base max_pages fuel rest seen' pages visited
        else
          let visited' := visited ++ [u]
          match w.page u with
          | none =>
            crawlGo w industry base max_pages fuel rest seen' pages visited'
          | some (html, text, links) =>
            let pages' := pages ++ [⟨u, _clean text, html, []⟩]
            let nexts :=
              (links.filter (fun n => pyStartswith n base && !(seen'.contains n))).dedup
            let sortedNexts := sortByDesc (fun uu => w.linkScore uu industry) nexts
            crawlGo w industry base max_pages fuel (rest ++ sortedNexts.take 10) seen' pages' visited'
    else (pages, visited)

/-- `crawler.crawl_site` (src/modules/crawler.py lines 7-39): strips the
trailing slashes of the seed, computes the base origin string, and runs
the frontier loop. Returns the collected pages and the trace of fetched
URLs. -/
def crawl_site (w : CrawlWorld) (seed_url industry : String) (max_pages : Nat) :
    List CrawlPage × List String :=
  let seed := dropRightWhileS seed_url (fun c => c == '/')
  let base := urlOrigin seed
  crawlGo w industry base max_pages (11 * max_pages + 1) [seed] [] [] []

/-- Insert a comma every three characters of a reversed digit list
(the grouping of Python's `f"{n:,}"`). -/
def commaRev : List Char → List Char
  | [] => []
  | [a] => [a]
  | [a, b] => [a, b]
  | [a, b, c] => [a, b, c]
  | a :: b :: c :: d :: rest => a :: b :: c :: ',' :: commaRev (d :: rest)

/-- Python's `f"{n:,}"` for an integer. -/
def intComma (n : Int) : String :=
  (if n < 0 then "-" else "") ++
    String.mk ((commaRev (toString n.natAbs).toList.reverse).reverse)

/-- `main_agent.analyze_price_range` (lines 131-136). -/
def analyze_price_range (pages : List CrawlPage) : String :=
  let all_prices := pages.flatMap (·.prices)
  if all_prices.isEmpty then "정보 없음"
  else
    let meaningful_prices := all_prices.filter (fun p => 10000 < p && p < 10000000)
    match meaningful_prices with
    | [] => "정보 없음"
    | p :: ps =>
      "약 " ++ intComma (ps.foldl min p) ++ "원 ~ " ++ intComma (ps.foldl max p) ++ "원"

/-- Domain fragments penalised by the seed-discovery scorer. -/
def blockKws : List String :=
  ["news", "recruit", "blog", "community", "wiki", "gov", "go.kr",
   "instagram", "facebook", "youtube"]

/-- Is `c` matched by the brand-token class `[a-zA-Z가-힣0-9]`? -/
def isTokenChar (c : Char) : Bool :=
  decide (('a' ≤ c ∧ c ≤ 'z') ∨ ('A' ≤ c ∧ c ≤ 'Z') ∨
    ('0' ≤ c ∧ c ≤ '9') ∨ ('가' ≤ c ∧ c ≤ '힣'))

/-- Accumulator pass splitting a char list into maximal token runs. -/
def tokenRunsAux (acc : List Char) : List Char → List String
  | [] => if acc.isEmpty then [] else [String.mk acc.reverse]
  | c :: cs =>
    if isTokenChar c then tokenRunsAux (c :: acc) cs
    else if acc.isEmpty then tokenRunsAux [] cs
    else String.mk acc.reverse :: tokenRunsAux [] cs

/-- `re.findall(r'[a-zA-Z가-힣0-9]+', brand_name)`. -/
def brandTokens (brand_name : String) : List String :=
  tokenRunsAux [] brand_name.toList

/-- `urlparse(url).netloc.replace("www.", "")` on the lower-cased URL. -/
def metaDomain (meta : SearchItem) : String :=
  replaceS (urlNetloc (strLower meta.url)) "www." ""

/-- Does the candidate's domain contain a blocked host fragment? -/
def blockHit (meta : SearchItem) : Bool :=
  blockKws.any (fun kw => hasSubstr (metaDomain meta) kw)

/-- Does any brand-name token occur in the candidate's domain? -/
def tokenHit (brand_name : String) (meta : SearchItem) : Bool :=
  (brandTokens brand_name).any (fun t => hasSubstr (strLower (metaDomain meta)) (strLower t))

/-- Does the lower-cased title carry an official marker word? -/
def titleHit (meta : SearchItem) : Bool :=
  hasSubstr (strLower meta.title) "공식" || hasSubstr (strLower meta.title) "official"

/-- Number of non-empty path segments of the lower-cased URL. -/
def pathDepth (meta : SearchItem) : Nat :=
  ((splitOnS (urlPath (strLower meta.url)) "/").filter (fun s => s != "")).length

/-- Heuristic score of one candidate in `discover_seed_url`
(src/main_agent.py lines 146-171). The source uses float scores in
multiples of 0.5 (−5.0 blocked domain, +5.0 brand token in the domain,
+2.0 official title marker, +1.0 for path depth ≤ 1, −0.5·depth
otherwise); this embedding stores the score doubled, as an exact
integer in half-point units (−10, +10, +4, +2, −depth), which preserves
every comparison the source makes. -/
def scoreMeta (brand_name : String) (meta : SearchItem) : Int :=
  let s1 : Int := if blockHit meta then 0 - 10 else 0
  let s2 := if tokenHit brand_name meta then s1 + 10 else s1
  let s3 := if titleHit meta then s2 + 4 else s2
  if pathDepth meta ≤ 1 then s3 + 2 else s3 - (pathDepth meta : Int)

/-- `sorted(scored_metas, key=lambda x: x.get("score", 0), reverse=True)`:
a stable descending sort on the attached score. -/
def sortedScored (brand_name : String) (metas : List SearchItem) :
    List (SearchItem × Int) :=
  sortByDesc (fun c => c.2) (metas.map (fun m => (m, scoreMeta brand_name m)))

/-- `llm_services.verify_official_site` (lines 123-151), with the LLM
call `get_llm_response(prompt)` supplied as an oracle from the prompt's
two variable parts. Returns `true` without an LLM; otherwise only when
the response is a non-empty object, carries no truthy `error`, and its
`is_official` value is the boolean `True` itself. -/
def verify_official_site (useLLM : Bool) (llm : String → String → PyDict)
    (content brand_name : String) : Bool :=
  if !useLLM then true
  else
    let response := llm content brand_name
    response != [] && !(pyTruthy ((pyGet response "error").getD .pnull)) &&
      (pyGet response "is_official") == some (.pbool true)

/-- Oracles for `discover_seed_url`: the provider and fetch worlds plus
the LLM used by `verify_official_site`. -/
structure DiscoverWorld where
  pw : ProviderWorld
  fw : FetchWorld
  useLLM : Bool
  llmVerify : String → String → PyDict

/-- The three query variants of `discover_seed_url` (line 141). -/
def discoverQueries (brand_name industry : String) : List String :=
  [brand_name ++ " 공식 홈페이지 " ++ industry,
   brand_name ++ " 공식 사이트",
   brand_name ++ " 브랜드"]

/-- Verification loop of `discover_seed_url` (lines 176-188): skip
candidates with a negative score, fetch evidence, accept the first
candidate with non-empty content that the verifier affirms. -/
def verifyLoop (w : DiscoverWorld) (brand_name : String) :
    List (SearchItem × Int) → Option String
  | [] => none
  | c :: rest =>
    if c.2 < 0 then verifyLoop w brand_name rest
    else
      let content := (dget (fetch_evidence w.fw [("url", c.1.url)]) "content").getD ""
      if content != "" && verify_official_site w.useLLM w.llmVerify content brand_name then
        some c.1.url
      else verifyLoop w brand_name rest

/-- `main_agent.discover_seed_url` (lines 138-197). The source ignores
its `per_query_cap` parameter and hard-codes cap 10 / threshold 5. -/
def discover_seed_url (w : DiscoverWorld) (brand_name industry : String)
    (per_query_cap : Nat) (preferred_provider : String) : Option String :=
  let _ := per_query_cap
  let metas := provider_collect w.pw preferred_provider
    (discoverQueries brand_name industry) 10 5 none "general"
  if metas.isEmpty then none
  else
    let sorted_metas := sortedScored brand_name metas
    match verifyLoop w brand_name (sorted_metas.take 3) with
    | some url => some url
    | none =>
      match sorted_metas with
      | [] => none
      | c :: _ => if c.2 > 0 then some c.1.url else none

/-- One insight entry of an analysis result. -/
structure Insight where
  insight : String
  quote : String
  source_url : String
deriving DecidableEq, Repr

/-- Return shapes of `summarize_and_extract_insights`: the
`InsufficientData` object, the `{"summary_bullets": [], "insights": []}`
default, or the LLM's JSON. -/
inductive SummarizeResult where
  | insufficientData : String → List Insight → List (Option String) → SummarizeResult
  | emptyDefault : SummarizeResult
  | llmResult : PyDict → SummarizeResult
deriving DecidableEq, Repr

/-- The single sentinel insight of the `InsufficientData` shape. -/
def insufficientSentinel : Insight :=
  ⟨"데이터 부족으로 분석 불가",
   "수집된 문서의 양이 너무 적어 유의미한 인사이트를 도출할 수 없습니다.", ""⟩

/-- The `total_content` aggregation of `summarize_and_extract_insights`:
`"".join(d.get("content", "") for d in docs)`. -/
def totalContent (docs : List Dict) : String :=
  String.join (docs.map (fun d => (dget d "content").getD ""))

/-- `llm_services.summarize_and_extract_insights` (lines 153-206), with
the final LLM call as an oracle over its prompt inputs. -/
def summarize_and_extract_insights (useLLM : Bool)
    (llm : List Dict → String → String → String → PyDict)
    (docs : List Dict) (topic industry audience : String) : SummarizeResult :=
  if (totalContent docs).length < 2000 then
    .insufficientData
      ("분석에 필요한 최소한의 데이터(2000자)를 수집하지 못했습니다. (현재 " ++
        toString (totalContent docs).length ++ "자)")
      [insufficientSentinel]
      (docs.map (fun d => dget d "url"))
  else if !useLLM || docs.isEmpty then .emptyDefault
  else .llmResult (llm docs topic industry audience)

/-- Record model of the duck-typed brand-profile dict produced by
`brand_profile_from_pages` and mutated by the orchestrator. `none`
fields model absent keys (`dict.get` then returns its default). -/
structure SiteProfile where
  error : Option String
  brand : Option String
  products_services : Option (List String)
  key_messages : Option (List String)
  estimated_price_range : Option String
deriving DecidableEq, Repr

/-- One entry of an `insights` list as probed by
`create_competitor_profile` (`insights[0].get("insight", ...)`). -/
structure MAInsight where
  insight : Option String
deriving DecidableEq, Repr

/-- Shape of a `get_market_awareness` result as probed by
`create_competitor_profile`: its `error` value and `insights` list. -/
structure MARes where
  error : Option String
  insights : List MAInsight
deriving DecidableEq, Repr

/-- A progress event `progress(tag, payload)`. -/
structure Event where
  tag : String
  payload : List (String × String)
deriving DecidableEq, Repr

/-- Per-competitor oracles for `create_competitor_profile`; each models
the named callee including any exception it may raise (`.error e`),
which the source catches at the corresponding call site. -/
structure CWorld where
  discover : Except String (Option String)
  crawl : String → Except String (List CrawlPage)
  profileFromPages : List CrawlPage → Except String (Option SiteProfile)
  awareness : Except String MARes
  image : Except String String
deriving Inhabited

/-- The `profile_data` dict built by `create_competitor_profile`. -/
structure CompetitorProfile where
  brand : String
  brand_position : String
  price_range : String
  key_products : List String
  key_features : String
  market_awareness : String
  consumer_image : String
  data_quality : String
deriving DecidableEq, Repr

/-- `main_agent.create_competitor_profile` (lines 249-322; the later of
the two same-named definitions is the one in effect). Returns the
profile together with the progress events it emits. -/
def create_competitor_profile (w : CWorld) (name : String) :
    CompetitorProfile × List Event := Id.run do
  let mut events : List Event := [⟨"competitor:start", [("name", name)]⟩]
  -- profile_data defaults
  let mut brand := name
  let mut brand_position := "정보 없음"
  let mut price_range := "정보 없음"
  let mut key_products : List String := ["-"]
  let mut key_features := "정보 없음"
  let mut market_awareness := "정보 없음"
  let mut consumer_image := "정보 없음"
  let mut data_quality := "minimal"
  -- site_profile = {} (falsy) until assigned
  let mut site_profile : Option SiteProfile := none
  match w.discover with
  | .error e =>
    events := events ++ [⟨"competitor:url_error", [("name", name), ("error", e)]⟩]
  | .ok none =>
    events := events ++ [⟨"competitor:no_url", [("name", name), ("reason", "url_discovery_failed")]⟩]
  | .ok (some seed_url) =>
    events := events ++ [⟨"competitor:url_found", [("name", name), ("url", seed_url)]⟩]
    match w.crawl seed_url with
    | .error e =>
      events := events ++ [⟨"competitor:crawl_error", [("name", name), ("error", e)]⟩]
    | .ok pages =>
      if pages.length > 0 then
        match w.profileFromPages pages with
        | .error e =>
          events := events ++ [⟨"competitor:crawl_error", [("name", name), ("error", e)]⟩]
        | .ok sp =>
          site_profile := sp
          match sp with
          | some p =>
            if !(optTruthy p.error) then
              site_profile := some { p with estimated_price_range := some (analyze_price_range pages) }
              data_quality := "good"
              events := events ++
                [⟨"competitor:site_analyzed", [("name", name), ("pages", toString pages.length)]⟩]
            else
              events := events ++
                [⟨"competitor:site_analysis_failed", [("name", name), ("reason", "llm_analysis_failed")]⟩]
          | none =>
            events := events ++
              [⟨"competitor:site_analysis_failed", [("name", name), ("reason", "llm_analysis_failed")]⟩]
      else
        events := events ++ [⟨"competitor:no_pages", [("name", name), ("reason", "crawling_failed")]⟩]
  -- update profile data with site information if available
  match site_profile with
  | some p =>
    if !(optTruthy p.error) then
      brand := p.brand.getD name
      let kms := p.key_messages.getD []
      brand_position := (if kms.isEmpty then [brand_position] else kms).headD ""
      price_range := p.estimated_price_range.getD price_range
      key_products := p.products_services.getD key_products
      key_features := (if kms.isEmpty then [key_features] else kms).getLastD ""
  | none => pure ()
  -- market awareness (optional)
  match w.awareness with
  | .error e =>
    events := events ++ [⟨"competitor:awareness_error", [("name", name), ("error", e)]⟩]
  | .ok aw =>
    if !(optTruthy aw.error) then
      match aw.insights with
      | [] => pure ()
      | i :: _ =>
        market_awareness := i.insight.getD "정보 없음"
        if data_quality == "minimal" then data_quality := "partial"
  -- consumer image (optional)
  match w.image with
  | .error e =>
    events := events ++ [⟨"competitor:consumer_image_error", [("name", name), ("error", e)]⟩]
  | .ok img =>
    if img != "" && img != "대중적 이미지를 파악하기 어려움" then
      consumer_image := img
      if data_quality == "minimal" then data_quality := "partial"
  events := events ++ [⟨"competitor:done", [("name", name), ("data_quality", data_quality)]⟩]
  return (⟨brand, brand_position, price_range, key_products, key_features,
           market_awareness, consumer_image, data_quality⟩, events)

/-- State of the `news_analysis` report field: the initial `{}`, the
`{"error": ...}` set by the stage's exception handler, or an analysis
result. -/
inductive NewsField where
  | initEmpty : NewsField
  | errStr : String → NewsField
  | res : SummarizeResult → NewsField
deriving DecidableEq, Repr

/-- The `report` dict of `run_research_v3` (lines 326-329): every field
initialised with a safe default before any stage runs. `none` models an
empty `{}` value. -/
structure Report where
  brand_profile : Option SiteProfile
  ontology : List String
  news_analysis : NewsField
  raw_news_docs : List Dict
  shopping_data : Option PyDict
  competitor_profiles : List CompetitorProfile
  competitor_comparison_table : String
  runMeta : Option (String × String)
deriving DecidableEq, Repr

/-- The initial report value: `{"brand_profile": {}, "ontology": {},
"news_analysis": {}, "raw_news_docs": [], "shopping_data": {},
"competitor_profiles": [], "competitor_comparison_table":
"분석 중 오류 발생", "run_meta": {}}`. The `ontology` field only tracks
its `competitor_corporate_and_brand_name` list (`[]` for `{}`, which is
equally falsy where the source probes it). -/
def initReport : Report :=
  ⟨none, [], .initEmpty, [], none, [], "분석 중 오류 발생", none⟩

/-- `re.sub(r"^www\.", "", urlparse(seed).netloc.split(":")[0]).split(".")[0]`
(line 338). -/
def brandHintOf (seed_url : String) : String :=
  let netloc := (splitOnS (urlNetloc seed_url) ":").headD ""
  let noWww := if pyStartswith netloc "www." then String.mk (netloc.toList.drop 4) else netloc
  (splitOnS noWww ".").headD ""

/-- Oracles for `run_research_v3` beyond the discovery/provider/fetch
worlds: per-competitor worlds and the remaining callees, each modelling
the named Python call including any exception it may raise. `enrich`
models `enrich_profile_with_shopping`, which mutates the profile dict in
place and returns the shopping dict; `ontologyNames` models
`ontology_for(...)` reduced to its `competitor_corporate_and_brand_name`
list (the only part of the ontology the pipeline reads). -/
structure OWorld where
  dw : DiscoverWorld
  cw : String → CWorld
  crawlW : CrawlWorld
  profileMain : String → List CrawlPage → Except String SiteProfile
  enrich : SiteProfile → Except String (SiteProfile × PyDict)
  ontologyNames : String → Except String (List String)
  newsLLM : List Dict → String → String → String → PyDict
  shopping : List String → Except String PyDict
  imageMain : Except String String
  synth : Except String PyDict
  tableGen : Except String String

/-- Outcome of the seed-resolution prologue (lines 332-337): either a
resolved seed URL, or the `ValueError` message raised before `brand_hint`
is ever assigned. -/
inductive SeedRes where
  | fatal : String → SeedRes
  | seed : String → SeedRes
deriving DecidableEq, Repr

/-- Lines 332-337 of `run_research_v3`: keyword-based seed discovery
with the two fatal `ValueError` cases. -/
def resolveSeed (w : OWorld) (seed_url : String) (keywords : List String)
    (industry : String) (per_query_cap : Nat) (preferred_provider : String) : SeedRes :=
  if seed_url == "" then
    if keywords.isEmpty then .fatal "Seed URL 또는 키워드를 입력해야 합니다."
    else
      match discover_seed_url w.dw (keywords.headD "") industry per_query_cap preferred_provider with
      | some found => .seed found
      | none =>
        .fatal ("키워드 '" ++ joinWith " " keywords ++
          "'로부터 유효한 웹사이트를 찾을 수 없습니다.")
  else .seed seed_url

/-- Crawl + profile + shopping-enrichment + ontology stage (lines
341-358). On a callee exception the handler replaces `brand_profile` by
an error dict; events already emitted (the inner `shopping:error`) are
kept, as is any state already written. The main crawl and
`analyze_price_range` are total in this embedding, so the stage's
`except` is entered exactly on a `profileMain`/`ontologyNames` error. -/
def stageProfile (w : OWorld) (seed industry : String) (bh : String)
    (report : Report) : Report × List Event :=
  let pages := (crawl_site w.crawlW seed industry 30).1
  match w.profileMain bh pages with
  | .error e =>
    ({report with brand_profile := some ⟨some ("프로필 생성 실패: " ++ e), none, none, none, none⟩},
     [⟨"profile:error", [("error", e)]⟩])
  | .ok prof0 =>
    let prof1 := { prof0 with estimated_price_range := some (analyze_price_range pages) }
    let report := {report with brand_profile := some prof1}
    let (report, profNow, evE) : Report × SiteProfile × List Event :=
      match w.enrich prof1 with
      | .error e => (report, prof1, [⟨"shopping:error", [("stage", "enrich_profile"), ("error", e)]⟩])
      | .ok (p2, sd) =>
        ({report with brand_profile := some p2, shopping_data := some sd}, p2, [])
    let ps0 := profNow.products_services.getD []
    let product_industry := (if ps0.isEmpty then ["-"] else ps0).headD "-"
    match w.ontologyNames product_industry with
    | .error e =>
      ({report with brand_profile := some ⟨some ("프로필 생성 실패: " ++ e), none, none, none, none⟩},
       evE ++ [⟨"profile:error", [("error", e)]⟩])
    | .ok names =>
      ({report with ontology := names},
       evE ++ [⟨"profile:done", [("brand", profNow.brand.getD "")]⟩])

/-- News-analysis stage (lines 362-380), composed from the embedded
provider gateway, evidence fetcher and insight extractor (all total
here, so the stage's `except` handler is unreachable in the model). -/
def stageNews (w : OWorld) (brand_name industry audience : String)
    (per_query_cap min_keep_threshold : Nat) (report : Report) : Report × List Event :=
  let base_keywords :=
    ["\"" ++ brand_name ++ "\"",
     "\"" ++ brand_name ++ "\" 신제품",
     "\"" ++ brand_name ++ "\" 캠페인 OR 광고"]
  let target_sites := ["site:news.naver.com", "site:v.daum.net"]
  let news_queries := target_sites.flatMap (fun site => base_keywords.map (fun k => site ++ " " ++ k))
  let news_metas := provider_collect w.dw.pw "ddg" news_queries per_query_cap
    min_keep_threshold (some "y") "general"
  let raw_news_docs := news_metas.map (fun m =>
    fetch_evidence w.dw.fw [("title", m.title), ("url", m.url), ("source", m.source)])
  ({report with
      raw_news_docs := raw_news_docs,
      news_analysis := .res (summarize_and_extract_insights w.dw.useLLM w.newsLLM
        raw_news_docs (brand_name ++ " 뉴스 분석") industry audience)}, [])

/-- Shopping stage (lines 382-387): only runs when the brand profile's
`products_services` is truthy (present and non-empty). -/
def stageShopping (w : OWorld) (report : Report) : Report × List Event :=
  match report.brand_profile with
  | none => (report, [])
  | some p =>
    let ps := p.products_services.getD []
    if ps.isEmpty then (report, [])
    else
      match w.shopping ps with
      | .error e => (report, [⟨"shopping:error", [("error", e)]⟩])
      | .ok sd => ({report with shopping_data := some sd}, [])

/-- Competitor-batch + comparison stage (lines 389-414). The name list
is the ontology-derived competitor list if truthy, else the caller's
list. Each name is processed by `create_competitor_profile` (total, its
internal handlers absorb sub-pipeline failures), and the profile list is
assigned before the comparison steps, whose exceptions are caught by the
stage handler leaving the table at its default. -/
def stageCompetitor (w : OWorld) (competitor_list : List String) (report : Report) :
    Report × List Event :=
  let names := if !report.ontology.isEmpty then report.ontology
               else if !competitor_list.isEmpty then competitor_list
               else []
  let pairs := names.map (fun n => create_competitor_profile (w.cw n) n)
  let report := {report with competitor_profiles := pairs.map (·.1)}
  let compEvents := pairs.flatMap (·.2)
  match w.imageMain with
  | .error e => (report, compEvents ++ [⟨"competitor:error", [("error", e)]⟩])
  | .ok _ =>
    match w.synth with
    | .error e => (report, compEvents ++ [⟨"competitor:error", [("error", e)]⟩])
    | .ok _ =>
      match w.tableGen with
      | .error e => (report, compEvents ++ [⟨"competitor:error", [("error", e)]⟩])
      | .ok t => ({report with competitor_comparison_table := t}, compEvents)

/-- Body of `run_research_v3` after the seed is resolved and
`brand_hint`/`run_meta` are set (lines 341-414). -/
def afterSeed (w : OWorld) (seed industry audience : String)
    (competitor_list : List String) (per_query_cap min_keep_threshold : Nat)
    (bh : String) (report : Report) : Report × List Event :=
  let s1 := stageProfile w seed industry bh report
  let brand_name := match s1.1.brand_profile with
    | some p => p.brand.getD bh
    | none => bh
  let s2 := stageNews w brand_name industry audience per_query_cap min_keep_threshold s1.1
  let s3 := stageShopping w s2.1
  let s4 := stageCompetitor w competitor_list s3.1
  (s4.1, s1.2 ++ s2.2 ++ s3.2 ++ s4.2)

/-- Complete outcome of one `run_research_v3` call: the in-memory
report, what was persisted to disk (`some (outdir, report)` when the
`finally` block completed its write), the function's return value
(`none` when an exception propagated out of the call), whether the
`finally` block itself raised a `NameError`, and the progress trace. -/
structure RunOutcome where
  report : Report
  written : Option (String × Report)
  returned : Option Report
  nameError : Bool
  events : List Event
deriving DecidableEq, Repr

/-- `main_agent.run_research_v3` (lines 325-424). In the fatal branch
the `ValueError` is raised at line 333/337, before line 338 assigns the
local `brand_hint`; the top-level handler catches it, and the `finally`
block then evaluates `f"out/{brand_hint or 'default'}"` — the default
argument of `.get` is evaluated unconditionally — which raises
`NameError` on the unbound local, so nothing is written and the
`NameError` propagates instead of the `return report`. In the non-fatal
branch `brand_hint` is bound, the report is serialised to
`<outdir>/report.json` and returned. -/
def run_research_v3 (w : OWorld) (seed_url industry audience : String)
    (keywords competitor_list : List String) (per_query_cap : Nat)
    (preferred_provider : String) (min_keep_threshold : Nat) : RunOutcome :=
  let ev0 : List Event :=
    [⟨"stage:start", [("seed_url", seed_url), ("industry", industry), ("audience", audience)]⟩]
  match resolveSeed w seed_url keywords industry per_query_cap preferred_provider with
  | .fatal msg =>
    ⟨initReport, none, none, true,
     ev0 ++ [⟨"pipeline:fatal_error", [("error", msg)]⟩]⟩
  | .seed seed =>
    let bh := brandHintOf seed
    let report1 := {initReport with runMeta := some (bh, "out/" ++ bh)}
    let (report, ev) := afterSeed w seed industry audience competitor_list
      per_query_cap min_keep_threshold bh report1
    let default_dir := "out/" ++ (if bh == "" then "default" else bh)
    let outdir := match report.runMeta with
      | some rm => rm.2
      | none => default_dir
    ⟨report, some (outdir, report), some report, false,
     ev0 ++ ev ++ [⟨"stage:done", [("outdir", outdir)]⟩]⟩

/-- `True` result-shape predicate for the `InsufficientData` value. -/
def SummarizeResult.isInsufficient : SummarizeResult → Bool
  | .insufficientData _ _ _ => true
  | _ => false

/-- The skip/accept test applied to one candidate by the verification
loop of `discover_seed_url`: score not negative, fetched content
non-empty, and the verifier affirms. -/
def verifyPass (w : DiscoverWorld) (brand_name : String) (c : SearchItem × Int) : Bool :=
  !(decide (c.2 < 0)) &&
    (let content := (dget (fetch_evidence w.fw [("url", c.1.url)]) "content").getD ""
     content != "" && verify_official_site w.useLLM w.llmVerify content brand_name)

/-- A fetch world in which every request raises. -/
def fwFail : FetchWorld := ⟨fun _ => .error "network down"⟩

/-- A provider world with no credentials whose every query raises. -/
def pwFail : ProviderWorld :=
  ⟨fun _ => none, fun _ _ _ => .error "ratelimit", fun _ _ _ => .error "ratelimit"⟩

/-- A provider world with both Tavily key spellings set, one ddg result
per query, and an empty (but successful) Tavily response. -/
def pwTav : ProviderWorld :=
  ⟨fun k => if k == "Tavily_API_KEY" || k == "TAVILY_API_KEY" then some "key" else none,
   fun _ _ _ => .ok [⟨some "ddg title", some "https://ddg.example.com"⟩],
   fun _ _ _ => .ok []⟩

/-- Crawl world for the origin counterexample: the seed page links to a
host that extends the seed's host string but is a different origin. -/
def cwOriginCx : CrawlWorld :=
  ⟨fun u =>
    if u == "https://a.com" then some ("h", "", ["https://a.community/x"])
    else if u == "https://a.community/x" then some ("h2", "", [])
    else none,
   fun _ _ => 0⟩

/-- A crawl world in which every fetch raises. -/
def cwFail : CrawlWorld := ⟨fun _ => none, fun _ _ => 0⟩

/-- Trivial discovery world over the failing providers. -/
def dwTriv : DiscoverWorld := ⟨pwFail, fwFail, true, fun _ _ => []⟩

/-- Competitor world whose seed discovery raises. -/
def compWbad : CWorld :=
  ⟨.error "boom", fun _ => .error "x", fun _ => .error "x", .error "x", .error "x"⟩

/-- Competitor world whose seed discovery finds nothing and whose
optional stages raise. -/
def compWok : CWorld :=
  ⟨.ok none, fun _ => .error "x", fun _ => .error "x", .error "x", .error "x"⟩

/-- Orchestrator world: profile synthesis, shopping, ontology and the
news provider all fail; competitor "B"'s seed discovery raises while
the other competitors' discovery finds nothing; the comparison steps
succeed. -/
def owX : OWorld :=
  ⟨dwTriv, fun n => if n == "B" then compWbad else compWok, cwFail,
   fun _ _ => .error "llm down", fun _ => .error "scrape down",
   fun _ => .error "llm down", fun _ _ _ _ => [], fun _ => .error "scrape down",
   .ok "IMG", .ok [], .ok "TBL"⟩

/-- Filtering away bindings of a key `k'` other than `k` does not
change the first binding of `k`. -/
theorem find?_filter_ne (d : Dict) (k k' : String) (h : ¬ k = k') :
    (d.filter (fun kv => kv.1 != k')).find? (fun kv => kv.1 == k) =
      d.find? (fun kv => kv.1 == k) := by
  induction d with
  | nil => rfl
  | cons a d ih =>
    by_cases hak : a.1 = k
    · have h1 : (a.1 != k') = true := by
        simp only [bne_iff_ne, ne_eq, hak]
        exact h
      rw [List.filter_cons, if_pos h1]
      simp [List.find?_cons, hak]
    · by_cases hak' : a.1 = k'
      · have h1 : (a.1 != k') = false := by simp [bne_iff_ne, hak']
        rw [List.filter_cons, if_neg (by simp [h1]), ih]
        simp [List.find?_cons, hak]
      · have h1 : (a.1 != k') = true := by simp [bne_iff_ne, hak']
        rw [List.filter_cons, if_pos h1]
        simp [List.find?_cons, hak, ih]

/-- Lookup after an overwrite of a different key is unchanged. -/
theorem dget_dset_ne (d : Dict) (k k' v : String) (h : ¬ k = k') :
    dget (dset d k' v) k = dget d k := by
  unfold dget dset
  rw [List.find?_append, find?_filter_ne d k k' h]
  have hkk : (k' == k) = false := by
    rw [beq_eq_false_iff_ne]
    exact fun hh => h hh.symm
  simp [List.find?_cons, hkk]

/-- Lookup of the overwritten key gives the new value. -/
theorem dget_dset_self (d : Dict) (k v : String) : dget (dset d k v) k = some v := by
  unfold dget dset
  rw [List.find?_append]
  have hnone : (d.filter (fun kv => kv.1 != k)).find? (fun kv => kv.1 == k) = none := by
    rw [List.find?_eq_none]
    intro x hx
    have := (List.mem_filter.mp hx).2
    simp only [bne_iff_ne, ne_eq, decide_eq_true_eq] at this
    simpa using this
  simp [hnone, List.find?_cons, Option.or]

/-- Main invariant of the crawl loop: the fetch trace stays duplicate
free, every fetched URL extends the base string, the collected pages
stay within the page budget, and no collected page carries prices. -/
theorem crawlGo_inv (w : CrawlWorld) (industry base : String) (max_pages : Nat)
    (fuel : Nat) (queue seen : List String) (pages : List CrawlPage) (visited : List String)
    (hnodup : visited.Nodup) (hseen : ∀ u ∈ visited, u ∈ seen)
    (hpre : ∀ u ∈ visited, pyStartswith u base = true)
    (hlen : pages.length ≤ max_pages)
    (hprices : ∀ p ∈ pages, p.prices = []) :
    (crawlGo w industry base max_pages fuel queue seen pages visited).2.Nodup ∧
      (∀ u ∈ (crawlGo w industry base max_pages fuel queue seen pages visited).2,
        pyStartswith u base = true) ∧
      (crawlGo w industry base max_pages fuel queue seen pages visited).1.length ≤ max_pages ∧
      (∀ p ∈ (crawlGo w industry base max_pages fuel queue seen pages visited).1,
        p.prices = []) := by
  revert hnodup hseen hpre hlen hprices
  revert queue seen pages visited
  induction fuel with
  | zero =>
    intro queue seen pages visited h1 h2 h3 h4 h5
    cases queue with
    | nil => rw [crawlGo]; exact ⟨h1, h3, h4, h5⟩
    | cons u rest => rw [crawlGo]; exact ⟨h1, h3, h4, h5⟩
  | succ fuel ih =>
    intro queue seen pages visited h1 h2 h3 h4 h5
    cases queue with
    | nil => rw [crawlGo]; exact ⟨h1, h3, h4, h5⟩
    | cons u rest =>
      rw [crawlGo]
      by_cases hp : pages.length < max_pages
      · rw [if_pos hp]
        by_cases hcont : seen.contains u = true
        · rw [if_pos hcont]
          exact ih rest seen pages visited h1 h2 h3 h4 h5
        · rw [if_neg hcont]
          dsimp only
          by_cases hpref : (!(pyStartswith u base)) = true
          · rw [if_pos hpref]
            exact ih rest (u :: seen) pages visited h1
              (fun v hv => List.mem_cons_of_mem u (h2 v hv)) h3 h4 h5
          · rw [if_neg hpref]
            have hu_seen : u ∉ seen := by simpa using hcont
            have hu_notin : u ∉ visited := fun hu => hu_seen (h2 u hu)
            have hupre : pyStartswith u base = true := by simpa using hpref
            cases hpage : w.page u with
            | none =>
              dsimp only
              refine ih rest (u :: seen) pages (visited ++ [u]) ?_ ?_ ?_ h4 h5
              · simp [List.nodup_append, h1, List.disjoint_singleton, hu_notin]
              · intro v hv
                rcases List.mem_append.mp hv with hv | hv
                · exact List.mem_cons_of_mem u (h2 v hv)
                · simp at hv
                  simp [hv]
              · intro v hv
                rcases List.mem_append.mp hv with hv | hv
                · exact h3 v hv
                · simp at hv; simpa [hv] using hupre
            | some res =>
              obtain ⟨html, text, links⟩ := res
              dsimp only
              refine ih _ (u :: seen) (pages ++ [⟨u, _clean text, html, []⟩])
                (visited ++ [u]) ?_ ?_ ?_ ?_ ?_
              · simp [List.nodup_append, h1, List.disjoint_singleton, hu_notin]
              · intro v hv
                rcases List.mem_append.mp hv with hv | hv
                · exact List.mem_cons_of_mem u (h2 v hv)
                · simp at hv
                  simp [hv]
              · intro v hv
                rcases List.mem_append.mp hv with hv | hv
                · exact h3 v hv
                · simp at hv; simpa [hv] using hupre
              · simp only [List.length_append, List.length_cons, List.length_nil]
                omega
              · intro p hp2
                rcases List.mem_append.mp hp2 with hp2 | hp2
                · exact h5 p hp2
                · simp at hp2; simp [hp2]
      · rw [if_neg hp]
        exact ⟨h1, h3, h4, h5⟩

/-- Invariant carried by the provider accumulators: every collected
item's URL is in the seen set, and collected URLs are pairwise
distinct. -/
def urlInv (st : List SearchItem × List String) : Prop :=
  (∀ i ∈ st.1, i.url ∈ st.2) ∧ st.1.Pairwise (fun a b => a.url ≠ b.url)

/-- Appending one unseen item preserves the accumulator invariant. -/
theorem urlInv_push (st : List SearchItem × List String) (item : SearchItem)
    (h : urlInv st) (hns : item.url ∉ st.2) :
    urlInv (st.1 ++ [item], st.2 ++ [item.url]) := by
  obtain ⟨hmem, hpw⟩ := h
  constructor
  · intro i hi
    rcases List.mem_append.mp hi with hi | hi
    · exact List.mem_append.mpr (Or.inl (hmem i hi))
    · simp at hi
      simp [hi]
  · rw [List.pairwise_append]
    refine ⟨hpw, by simp, ?_⟩
    intro a ha b hb
    simp at hb
    subst hb
    exact fun he => hns (he ▸ hmem a ha)

/-- `ddgAbsorb` preserves the accumulator invariant. -/
theorem ddgAbsorb_inv (rs : List DdgRaw) (st : List SearchItem × List String)
    (h : urlInv st) : urlInv (ddgAbsorb st rs) := by
  induction rs generalizing st with
  | nil => simpa [ddgAbsorb]
  | cons r rs ih =>
    simp only [ddgAbsorb, List.foldl_cons]
    have hstep : urlInv (match r.href with
      | none => st
      | some href =>
        if href == "" || st.2.contains href then st
        else (st.1 ++ [⟨r.title.getD "", href, urlNetloc href, none⟩], st.2 ++ [href])) := by
      cases r.href with
      | none => exact h
      | some href =>
        dsimp only
        by_cases hc : (href == "" || st.2.contains href) = true
        · rw [if_pos hc]
          exact h
        · rw [if_neg hc]
          have hns : href ∉ st.2 := by
            intro hm
            exact hc (by simp; exact Or.inr hm)
          exact urlInv_push st ⟨r.title.getD "", href, urlNetloc href, none⟩ h hns
    exact ih _ hstep

/-- `tavilyAbsorb` preserves the accumulator invariant. -/
theorem tavilyAbsorb_inv (rs : List TavRaw) (st : List SearchItem × List String)
    (h : urlInv st) : urlInv (tavilyAbsorb st rs) := by
  induction rs generalizing st with
  | nil => simpa [tavilyAbsorb]
  | cons r rs ih =>
    simp only [tavilyAbsorb, List.foldl_cons]
    have hstep : urlInv (match r.url with
      | none => st
      | some href =>
        if href == "" || st.2.contains href then st
        else (st.1 ++ [⟨r.title.getD "", href, urlNetloc href, some (r.content.getD "")⟩],
              st.2 ++ [href])) := by
      cases r.url with
      | none => exact h
      | some href =>
        dsimp only
        by_cases hc : (href == "" || st.2.contains href) = true
        · rw [if_pos hc]
          exact h
        · rw [if_neg hc]
          have hns : href ∉ st.2 := by
            intro hm
            exact hc (by simp; exact Or.inr hm)
          exact urlInv_push st ⟨r.title.getD "", href, urlNetloc href, some (r.content.getD "")⟩ h hns
    exact ih _ hstep

/-- The per-query fold of `ddg_collect` preserves the invariant. -/
theorem ddgFold_inv (w : ProviderWorld) (per_query_cap : Nat) (timelimit : Option String)
    (qs : List String) (st : List SearchItem × List String) (h : urlInv st) :
    urlInv (qs.foldl
      (fun st q =>
        let q := _sanitize_query q
        if q == "" then st
        else
          match w.ddgText q per_query_cap timelimit with
          | .error _ => st
          | .ok results => ddgAbsorb st results) st) := by
  induction qs generalizing st with
  | nil => simpa
  | cons q qs ih =>
    rw [List.foldl_cons]
    apply ih
    by_cases hq : (_sanitize_query q == "") = true
    · simpa [hq] using h
    · simp only [hq, if_false]
      cases w.ddgText (_sanitize_query q) per_query_cap timelimit with
      | error e => exact h
      | ok results => exact ddgAbsorb_inv results st h

/-- URLs returned by `ddg_collect` are pairwise distinct. -/
theorem ddg_collect_pairwise (w : ProviderWorld) (qs : List String)
    (per_query_cap : Nat) (timelimit : Option String) :
    (ddg_collect w qs per_query_cap timelimit).Pairwise (fun a b => a.url ≠ b.url) := by
  have h := ddgFold_inv w per_query_cap timelimit qs ([], []) ⟨by simp, by simp⟩
  exact h.2

/-- The Tavily query loop preserves the invariant on success. -/
theorem tavilyLoop_inv (w : ProviderWorld) (per_query_cap : Nat) (topic : String)
    (qs : List String) (acc : List SearchItem) (seen : List String)
    (h : urlInv (acc, seen)) (out : List SearchItem)
    (hout : tavilyLoop w per_query_cap topic qs acc seen = some out) :
    out.Pairwise (fun a b => a.url ≠ b.url) := by
  induction qs generalizing acc seen with
  | nil =>
    rw [tavilyLoop] at hout
    cases hout
    exact h.2
  | cons q qs ih =>
    rw [tavilyLoop] at hout
    by_cases hq : (_sanitize_query q == "") = true
    · rw [if_pos hq] at hout
      exact ih acc seen h hout
    · rw [if_neg hq] at hout
      cases hw : w.tavilySearch (_sanitize_query q) per_query_cap topic with
      | error e => rw [hw] at hout; cases hout
      | ok results =>
        rw [hw] at hout
        exact ih _ _ (tavilyAbsorb_inv results (acc, seen) h) hout

/-- URLs returned by `tavily_collect` are pairwise distinct. -/
theorem tavily_collect_pairwise (w : ProviderWorld) (qs : List String)
    (per_query_cap : Nat) (topic : String) :
    (tavily_collect w qs per_query_cap topic).Pairwise (fun a b => a.url ≠ b.url) := by
  unfold tavily_collect
  by_cases hk : (((w.env "TAVILY_API_KEY").getD "") == "") = true
  · simp [hk]
  · rw [if_neg hk]
    cases hl : tavilyLoop w per_query_cap topic qs [] [] with
    | none => simp
    | some out =>
      simpa using tavilyLoop_inv w per_query_cap topic qs [] [] ⟨by simp, by simp⟩ out hl

/-- Merging keeps URLs pairwise distinct. -/
theorem providerMerge_pairwise (primary secondary : List SearchItem)
    (h1 : primary.Pairwise (fun a b => a.url ≠ b.url))
    (h2 : secondary.Pairwise (fun a b => a.url ≠ b.url)) :
    (providerMerge primary secondary).Pairwise (fun a b => a.url ≠ b.url) := by
  unfold providerMerge
  rw [List.pairwise_append]
  refine ⟨h1, List.Pairwise.filter _ h2, ?_⟩
  intro a ha b hb
  have hb2 := (List.mem_filter.mp hb).2
  intro he
  have hmem : b.url ∈ primary.map (·.url) := by
    rw [← he]
    exact List.mem_map_of_mem (·.url) ha
  have hcont : ((primary.map (·.url)).contains b.url) = false := by
    simpa using hb2
  have htrue : ((primary.map (·.url)).contains b.url) = true := List.elem_iff.mpr hmem
  rw [htrue] at hcont
  cases hcont

/-- `provider_collect` never returns two items with the same URL. -/
theorem provider_collect_pairwise (w : ProviderWorld) (preferred_provider : String)
    (qs : List String) (per_query_cap min_keep_threshold : Nat)
    (timelimit : Option String) (topic : String) :
    (provider_collect w preferred_provider qs per_query_cap min_keep_threshold
      timelimit topic).Pairwise (fun a b => a.url ≠ b.url) := by
  unfold provider_collect
  by_cases hpref : (preferred_provider == "tavily" &&
      ((w.env "Tavily_API_KEY").getD "") != "") = true
  · rw [if_pos hpref]
    by_cases hlen : (tavily_collect w qs per_query_cap topic).length < min_keep_threshold
    · rw [if_pos hlen]
      exact providerMerge_pairwise _ _ (tavily_collect_pairwise w qs per_query_cap topic)
        (ddg_collect_pairwise w qs per_query_cap timelimit)
    · rw [if_neg hlen]
      exact tavily_collect_pairwise w qs per_query_cap topic
  · rw [if_neg hpref]
    exact ddg_collect_pairwise w qs per_query_cap timelimit

/-- When every ddg query raises, the batch accumulator never moves. -/
theorem ddgFold_fail (w : ProviderWorld) (per_query_cap : Nat) (timelimit : Option String)
    (qs : List String) (st : List SearchItem × List String)
    (hd : ∀ q tl rs, w.ddgText q per_query_cap tl ≠ .ok rs) :
    (qs.foldl
      (fun st q =>
        let q := _sanitize_query q
        if q == "" then st
        else
          match w.ddgText q per_query_cap timelimit with
          | .error _ => st
          | .ok results => ddgAbsorb st results) st) = st := by
  induction qs generalizing st with
  | nil => rfl
  | cons q qs ih =>
    rw [List.foldl_cons]
    have hstep : (let q' := _sanitize_query q
        if q' == "" then st
        else
          match w.ddgText q' per_query_cap timelimit with
          | .error _ => st
          | .ok results => ddgAbsorb st results) = st := by
      by_cases hq : (_sanitize_query q == "") = true
      · simp [hq]
      · simp only [hq, if_false]
        cases hw : w.ddgText (_sanitize_query q) per_query_cap timelimit with
        | error e => rfl
        | ok results => exact absurd hw (hd _ _ _)
    rw [hstep]
    exact ih st

/-- `ddg_collect` returns `[]` when every query raises. -/
theorem ddg_collect_fail (w : ProviderWorld) (qs : List String)
    (per_query_cap : Nat) (timelimit : Option String)
    (hd : ∀ q tl rs, w.ddgText q per_query_cap tl ≠ .ok rs) :
    ddg_collect w qs per_query_cap timelimit = [] := by
  unfold ddg_collect
  rw [ddgFold_fail w per_query_cap timelimit qs ([], []) hd]

/-- When every Tavily query raises, the loop returns its accumulator
untouched or aborts. -/
theorem tavilyLoop_fail (w : ProviderWorld) (per_query_cap : Nat) (topic : String)
    (qs : List String)
    (ht : ∀ q rs, w.tavilySearch q per_query_cap topic ≠ .ok rs) :
    ∀ acc seen, tavilyLoop w per_query_cap topic qs acc seen = some acc ∨
      tavilyLoop w per_query_cap topic qs acc seen = none := by
  induction qs with
  | nil => intro acc seen; left; rfl
  | cons q qs ih =>
    intro acc seen
    rw [tavilyLoop]
    by_cases hq : (_sanitize_query q == "") = true
    · rw [if_pos hq]
      exact ih acc seen
    · rw [if_neg hq]
      cases hw : w.tavilySearch (_sanitize_query q) per_query_cap topic with
      | error e => right; rfl
      | ok results => exact absurd hw (ht _ _)

/-- `tavily_collect` returns `[]` when every query raises. -/
theorem tavily_collect_fail (w : ProviderWorld) (qs : List String)
    (per_query_cap : Nat) (topic : String)
    (ht : ∀ q rs, w.tavilySearch q per_query_cap topic ≠ .ok rs) :
    tavily_collect w qs per_query_cap topic = [] := by
  unfold tavily_collect
  by_cases hk : (((w.env "TAVILY_API_KEY").getD "") == "") = true
  · rw [if_pos hk]
  · rw [if_neg hk]
    rcases tavilyLoop_fail w per_query_cap topic qs ht [] [] with h | h <;> rw [h] <;> rfl

/-- The verification loop returns exactly the URL of the first
candidate passing `verifyPass`. -/
theorem verifyLoop_eq_find (w : DiscoverWorld) (brand_name : String)
    (l : List (SearchItem × Int)) :
    verifyLoop w brand_name l = (l.find? (verifyPass w brand_name)).map (fun c => c.1.url) := by
  induction l with
  | nil => rfl
  | cons c rest ih =>
    rw [verifyLoop]
    by_cases hneg : c.2 < 0
    · have hpass : verifyPass w brand_name c = false := by
        simp [verifyPass, hneg]
      rw [if_pos hneg, ih, List.find?_cons_of_neg _ (by simp [hpass])]
    · rw [if_neg hneg]
      by_cases hcv : ((dget (fetch_evidence w.fw [("url", c.1.url)]) "content").getD "" != "" &&
          verify_official_site w.useLLM w.llmVerify
            ((dget (fetch_evidence w.fw [("url", c.1.url)]) "content").getD "") brand_name) = true
      · have hpass : verifyPass w brand_name c = true := by
          simp only [verifyPass]
          simp [hneg, hcv]
        rw [if_pos hcv, List.find?_cons_of_pos _ hpass]
        rfl
      · have hpass : verifyPass w brand_name c = false := by
          simp only [verifyPass]
          rw [Bool.and_eq_false_iff]
          right
          simpa using hcv
        rw [if_neg hcv, ih, List.find?_cons_of_neg _ (by simp [hpass])]

/-- `stageNews` only touches `raw_news_docs` and `news_analysis`. -/
theorem stageNews_preserves (w : OWorld) (brand_name industry audience : String)
    (cap mk : Nat) (r : Report) :
    (stageNews w brand_name industry audience cap mk r).1.ontology = r.ontology ∧
    (stageNews w brand_name industry audience cap mk r).1.competitor_profiles =
      r.competitor_profiles := by
  constructor <;> rfl

/-- `stageShopping` only touches `shopping_data`. -/
theorem stageShopping_preserves (w : OWorld) (r : Report) :
    (stageShopping w r).1.ontology = r.ontology ∧
    (stageShopping w r).1.competitor_profiles = r.competitor_profiles := by
  unfold stageShopping
  cases hbp : r.brand_profile with
  | none => exact ⟨rfl, rfl⟩
  | some p =>
    dsimp only
    by_cases hps : (p.products_services.getD []).isEmpty = true
    · rw [if_pos hps]
      exact ⟨rfl, rfl⟩
    · rw [if_neg hps]
      cases w.shopping (p.products_services.getD []) with
      | error e => exact ⟨rfl, rfl⟩
      | ok sd => exact ⟨rfl, rfl⟩

/-- `stageCompetitor` keeps the ontology and writes one profile per
name of the resolved competitor name list. -/
theorem stageCompetitor_profiles (w : OWorld) (competitor_list : List String) (r : Report) :
    (stageCompetitor w competitor_list r).1.ontology = r.ontology ∧
    (stageCompetitor w competitor_list r).1.competitor_profiles =
      (if !r.ontology.isEmpty then r.ontology
       else if !competitor_list.isEmpty then competitor_list
       else []).map (fun n => (create_competitor_profile (w.cw n) n).1) := by
  unfold stageCompetitor
  cases w.imageMain with
  | error e => exact ⟨rfl, by dsimp only; rw [List.map_map]; rfl⟩
  | ok img =>
    dsimp only
    cases w.synth with
    | error e => exact ⟨rfl, by dsimp only; rw [List.map_map]; rfl⟩
    | ok sy =>
      dsimp only
      cases w.tableGen with
      | error e => exact ⟨rfl, by dsimp only; rw [List.map_map]; rfl⟩
      | ok t => exact ⟨rfl, by dsimp only; rw [List.map_map]; rfl⟩

/-- C10: for every input metadata dict and every outcome (successful
fetch, short-content rejection, or exception), `fetch_evidence` returns
a dict agreeing with the input on every key other than `content` and
`error`, and on an accepted fetch it only overwrites `content` (the
whole result is the input dict with `content` set); being a total
function of its oracles, it never raises. -/
theorem claim_C10_fetch_evidence_frame (w : FetchWorld) (meta : Dict) :
    (∀ k, ¬ k = "content" → ¬ k = "error" →
      dget (fetch_evidence w meta) k = dget meta k) ∧
    (∀ text, w.fetchText ((dget meta "url").getD "") = .ok text →
      ¬ (text = "" ∨ text.length < 150) →
      fetch_evidence w meta = dset meta "content" (_clean text)) := by
  constructor
  · intro k hkc hke
    unfold fetch_evidence
    cases w.fetchText ((dget meta "url").getD "") with
    | error e => rw [dget_dset_ne _ _ _ _ hke, dget_dset_ne _ _ _ _ hkc]
    | ok text =>
      dsimp only
      by_cases hshort : (text == "" || text.length < 150) = true
      · rw [if_pos hshort, dget_dset_ne _ _ _ _ hke, dget_dset_ne _ _ _ _ hkc]
      · rw [if_neg hshort, dget_dset_ne _ _ _ _ hkc]
  · intro text hok hns
    unfold fetch_evidence
    rw [hok]
    dsimp only
    have hcond : ¬ ((text == "" || text.length < 150) = true) := by
      simp only [Bool.or_eq_true, beq_iff_eq, decide_eq_true_eq]
      exact hns
    rw [if_neg hcond]

/-- Witness for C10 at a concrete failing fetch: the extra `note` key
survives untouched. -/
theorem claim_C10_fetch_evidence_frame_witness :
    dget (fetch_evidence fwFail [("url", "https://x.com"), ("note", "keep")]) "note" =
      dget [("url", "https://x.com"), ("note", "keep")] "note" :=
  (claim_C10_fetch_evidence_frame fwFail [("url", "https://x.com"), ("note", "keep")]).1
    "note" (by decide) (by decide)

/-- C9: the single-document gate of `fetch_evidence` rejects extracted
text of length 149 (tagging it `short`) and accepts length ≥ 150; the
aggregate gate of `summarize_and_extract_insights` rejects a total of
1999 characters and accepts 2000; and a rejected aggregate (for example
1500 characters) yields the explicit `InsufficientData` shape whose
`insights` list is exactly the one sentinel entry and which carries the
attempted source URLs — not an empty success and not an exception. -/
theorem claim_C9_quality_gate_boundaries
    (w : FetchWorld) (meta : Dict) (text : String)
    (useLLM : Bool) (llm : List Dict → String → String → String → PyDict)
    (docs : List Dict) (topic industry audience : String) :
    (w.fetchText ((dget meta "url").getD "") = .ok text →
      (text.length = 149 →
        fetch_evidence w meta = dset (dset meta "content" "") "error" "short") ∧
      (150 ≤ text.length →
        fetch_evidence w meta = dset meta "content" (_clean text))) ∧
    ((totalContent docs).length = 1999 →
      summarize_and_extract_insights useLLM llm docs topic industry audience =
        .insufficientData
          "분석에 필요한 최소한의 데이터(2000자)를 수집하지 못했습니다. (현재 1999자)"
          [insufficientSentinel] (docs.map (fun d => dget d "url"))) ∧
    (2000 ≤ (totalContent docs).length →
      (summarize_and_extract_insights useLLM llm docs topic industry
        audience).isInsufficient = false) ∧
    ((totalContent docs).length = 1500 →
      summarize_and_extract_insights useLLM llm docs topic industry audience =
        .insufficientData
          "분석에 필요한 최소한의 데이터(2000자)를 수집하지 못했습니다. (현재 1500자)"
          [insufficientSentinel] (docs.map (fun d => dget d "url"))) := by
  refine ⟨?_, ?_, ?_, ?_⟩
  · intro hok
    constructor
    · intro h149
      unfold fetch_evidence
      rw [hok]
      dsimp only
      rw [if_pos (by simp [h149])]
    · intro h150
      have hne : ¬ text = "" := by
        intro he
        rw [he] at h150
        simp at h150
      unfold fetch_evidence
      rw [hok]
      dsimp only
      have hcond : ¬ ((text == "" || text.length < 150) = true) := by
        simp only [Bool.or_eq_true, beq_iff_eq, decide_eq_true_eq, not_or, not_lt]
        exact ⟨hne, h150⟩
      rw [if_neg hcond]
  · intro h
    unfold summarize_and_extract_insights
    rw [h, if_pos (by norm_num)]
    rfl
  · intro h
    unfold summarize_and_extract_insights
    rw [if_neg (by omega)]
    split <;> rfl
  · intro h
    unfold summarize_and_extract_insights
    rw [h, if_pos (by norm_num)]
    rfl

set_option maxRecDepth 40000 in
/-- Witness for C9: a 149-character page is tagged `short`, a
150-character page is accepted, and a 1500-character aggregate yields
the sentinel `InsufficientData` shape. -/
theorem claim_C9_quality_gate_boundaries_witness :
    (fetch_evidence ⟨fun _ => .ok (String.mk (List.replicate 149 'a'))⟩ [("url", "u")] =
      dset (dset [("url", "u")] "content" "") "error" "short") ∧
    (fetch_evidence ⟨fun _ => .ok (String.mk (List.replicate 150 'a'))⟩ [("url", "u")] =
      dset [("url", "u")] "content" (_clean (String.mk (List.replicate 150 'a')))) ∧
    (summarize_and_extract_insights true (fun _ _ _ _ => [])
        [[("content", String.mk (List.replicate 1500 'x')), ("url", "https://n.example.com")]]
        "topic" "ind" "aud" =
      .insufficientData
        "분석에 필요한 최소한의 데이터(2000자)를 수집하지 못했습니다. (현재 1500자)"
        [insufficientSentinel] [some "https://n.example.com"]) :=
  ⟨((claim_C9_quality_gate_boundaries ⟨fun _ => .ok (String.mk (List.replicate 149 'a'))⟩
      [("url", "u")] (String.mk (List.replicate 149 'a')) true (fun _ _ _ _ => [])
      [] "topic" "ind" "aud").1 rfl).1 (by decide),
   ((claim_C9_quality_gate_boundaries ⟨fun _ => .ok (String.mk (List.replicate 150 'a'))⟩
      [("url", "u")] (String.mk (List.replicate 150 'a')) true (fun _ _ _ _ => [])
      [] "topic" "ind" "aud").1 rfl).2 (by decide),
   by
    have h := (claim_C9_quality_gate_boundaries fwFail [] "" true (fun _ _ _ _ => [])
      [[("content", String.mk (List.replicate 1500 'x')), ("url", "https://n.example.com")]]
      "topic" "ind" "aud").2.2.2 (by decide)
    simpa using h⟩

/-- C4: with the preferred provider set to the advanced one (and its
gating environment variable present), a primary yield below the
threshold triggers exactly one fallback run of the full batch against
ddg, merged URL-uniquely; a yield at or above the threshold returns the
primary results alone (the fallback provider contributes nothing); and
with the default provider preferred, the result is the ddg batch alone
(no Tavily call is consulted). -/
theorem claim_C4_provider_fallback_routing (w : ProviderWorld) (qs : List String)
    (per_query_cap min_keep_threshold : Nat) (timelimit : Option String) (topic : String) :
    (((w.env "Tavily_API_KEY").getD "" ≠ "") →
      ((tavily_collect w qs per_query_cap topic).length < min_keep_threshold →
        provider_collect w "tavily" qs per_query_cap min_keep_threshold timelimit topic =
          providerMerge (tavily_collect w qs per_query_cap topic)
            (ddg_collect w qs per_query_cap timelimit)) ∧
      (min_keep_threshold ≤ (tavily_collect w qs per_query_cap topic).length →
        provider_collect w "tavily" qs per_query_cap min_keep_threshold timelimit topic =
          tavily_collect w qs per_query_cap topic)) ∧
    provider_collect w "ddg" qs per_query_cap min_keep_threshold timelimit topic =
      ddg_collect w qs per_query_cap timelimit := by
  constructor
  · intro henv
    have hcond : ("tavily" == "tavily" &&
        ((w.env "Tavily_API_KEY").getD "") != "") = true := by
      simp [henv]
    constructor
    · intro hlen
      unfold provider_collect
      rw [if_pos hcond, if_pos hlen]
    · intro hlen
      unfold provider_collect
      rw [if_pos hcond, if_neg (by omega)]
  · unfold provider_collect
    rw [if_neg (by simp)]

/-- Witness for C4 on `pwTav` (keys set, empty Tavily yield, one ddg
result per query): threshold 1 forces the merge, threshold 0 keeps the
primary result, and the ddg-preferred path is the plain ddg batch. -/
theorem claim_C4_provider_fallback_routing_witness :
    (provider_collect pwTav "tavily" ["q"] 5 1 none "general" =
      providerMerge (tavily_collect pwTav ["q"] 5 "general")
        (ddg_collect pwTav ["q"] 5 none)) ∧
    (provider_collect pwTav "tavily" ["q"] 5 0 none "general" =
      tavily_collect pwTav ["q"] 5 "general") ∧
    (provider_collect pwTav "ddg" ["q"] 5 3 none "general" =
      ddg_collect pwTav ["q"] 5 none) :=
  ⟨((claim_C4_provider_fallback_routing pwTav ["q"] 5 1 none "general").1
      (by decide)).1 (by decide),
   ((claim_C4_provider_fallback_routing pwTav ["q"] 5 0 none "general").1
      (by decide)).2 (by decide),
   (claim_C4_provider_fallback_routing pwTav ["q"] 5 3 none "general").2⟩

/-- C5: the provider gateway returns `[]` rather than raising when
every provider/query call fails, and its result never contains two
items with the same URL. -/
theorem claim_C5_provider_collect_safe (w : ProviderWorld) (preferred_provider : String)
    (qs : List String) (per_query_cap min_keep_threshold : Nat)
    (timelimit : Option String) (topic : String) :
    ((∀ q tl rs, w.ddgText q per_query_cap tl ≠ .ok rs) →
     (∀ q rs, w.tavilySearch q per_query_cap topic ≠ .ok rs) →
      provider_collect w preferred_provider qs per_query_cap min_keep_threshold
        timelimit topic = []) ∧
    (provider_collect w preferred_provider qs per_query_cap min_keep_threshold
      timelimit topic).Pairwise (fun a b => a.url ≠ b.url) := by
  constructor
  · intro hd ht
    unfold provider_collect
    by_cases hpref : (preferred_provider == "tavily" &&
        ((w.env "Tavily_API_KEY").getD "") != "") = true
    · rw [if_pos hpref, tavily_collect_fail w qs per_query_cap topic ht,
        ddg_collect_fail w qs per_query_cap timelimit hd]
      dsimp only
      split <;> rfl
    · rw [if_neg hpref]
      exact ddg_collect_fail w qs per_query_cap timelimit hd
  · exact provider_collect_pairwise w preferred_provider qs per_query_cap
      min_keep_threshold timelimit topic

/-- Witness for C5 on the all-failing provider world. -/
theorem claim_C5_provider_collect_safe_witness :
    provider_collect pwFail "tavily" ["q1", "q2"] 5 3 none "general" = [] :=
  (claim_C5_provider_collect_safe pwFail "tavily" ["q1", "q2"] 5 3 none "general").1
    (by intro q tl rs h; exact Except.noConfusion h)
    (by intro q rs h; exact Except.noConfusion h)

/-- C6 (code bug): `crawl_site` pages never carry a `prices` key, so
`analyze_price_range` applied to any crawl result — including scenario
B's — is always the `"정보 없음"` sentinel; the band logic itself, fed a
page dict that does carry prices `[15000, 12000000, 89000]`, would
report the 15,000–89,000 range excluding the 12,000,000 outlier, which
is what the claim expects of the composed pipeline. -/
theorem claim_C6_price_range_never_computed (w : CrawlWorld)
    (seed_url industry : String) (max_pages : Nat) :
    analyze_price_range (crawl_site w seed_url industry max_pages).1 = "정보 없음" ∧
    analyze_price_range [⟨"https://s.example.com/p", "t", "h", [15000, 12000000, 89000]⟩] =
      "약 15,000원 ~ 89,000원" := by
  constructor
  · have h := crawlGo_inv w industry
      (urlOrigin (dropRightWhileS seed_url (fun c => c == '/'))) max_pages
      (11 * max_pages + 1) [dropRightWhileS seed_url (fun c => c == '/')] [] [] []
      List.nodup_nil (by simp) (by simp) (by simp) (by simp)
    have hpr := h.2.2.2
    unfold analyze_price_range
    have hnil : ((crawl_site w seed_url industry max_pages).1.flatMap (·.prices)) = [] := by
      rw [List.flatMap_eq_nil_iff]
      intro p hp
      exact hpr p hp
    rw [hnil]
    rfl
  · decide

/-- C3 (counterexample): from seed `https://a.com` the crawler fetches
`https://a.community/x` — admitted by the string-prefix check — whose
scheme+host origin differs from the seed's. -/
theorem claim_C3_crawler_origin_counterexample :
    (crawl_site cwOriginCx "https://a.com" "ind" 30).2.contains "https://a.community/x" = true ∧
    urlOrigin "https://a.community/x" ≠ urlOrigin "https://a.com" := by
  constructor
  · decide
  · decide

/-- C3 (amended): the crawler never fetches the same URL twice, never
exceeds `maxPages` collected pages, and only fetches URLs having the
seed's `scheme://netloc` string as a prefix — a check weaker than
same-origin, since a different host extending that string also
passes. -/
theorem claim_C3_crawler_invariants (w : CrawlWorld) (seed_url industry : String)
    (max_pages : Nat) :
    (crawl_site w seed_url industry max_pages).2.Nodup ∧
    (∀ u ∈ (crawl_site w seed_url industry max_pages).2,
      pyStartswith u (urlOrigin (dropRightWhileS seed_url (fun c => c == '/'))) = true) ∧
    (crawl_site w seed_url industry max_pages).1.length ≤ max_pages := by
  have h := crawlGo_inv w industry
    (urlOrigin (dropRightWhileS seed_url (fun c => c == '/'))) max_pages
    (11 * max_pages + 1) [dropRightWhileS seed_url (fun c => c == '/')] [] [] []
    List.nodup_nil (by simp) (by simp) (by simp) (by simp)
  exact ⟨h.1, h.2.1, h.2.2.1⟩

/-- C7: seed discovery equals the following procedure — among only the
top 3 sorted candidates, return immediately the URL of the first that
has a non-negative score, non-empty fetched content and an affirmative
verification (`verifyPass`); if none qualifies, return the single
highest-scoring candidate exactly when its score is strictly positive,
else null. Moreover with the LLM enabled, the verifier affirms exactly
when its response is a non-empty object with no truthy `error` whose
`is_official` value is the boolean `True` itself. -/
theorem claim_C7_discover_verification (w : DiscoverWorld) (brand_name industry : String)
    (per_query_cap : Nat) (preferred_provider : String) :
    (discover_seed_url w brand_name industry per_query_cap preferred_provider =
      (let sorted := sortedScored brand_name (provider_collect w.pw preferred_provider
        (discoverQueries brand_name industry) 10 5 none "general")
       match ((sorted.take 3).find? (verifyPass w brand_name)).map (fun c => c.1.url) with
       | some url => some url
       | none =>
         match sorted with
         | [] => none
         | c :: _ => if c.2 > 0 then some c.1.url else none)) ∧
    (∀ (llm : String → String → PyDict) (content bn : String),
      verify_official_site true llm content bn = true ↔
        (llm content bn ≠ [] ∧
         pyTruthy ((pyGet (llm content bn) "error").getD .pnull) = false ∧
         pyGet (llm content bn) "is_official" = some (.pbool true))) := by
  constructor
  · unfold discover_seed_url
    by_cases hm : (provider_collect w.pw preferred_provider
        (discoverQueries brand_name industry) 10 5 none "general").isEmpty = true
    · rw [if_pos hm]
      have hnil := List.isEmpty_iff.mp hm
      rw [hnil]
      simp [sortedScored, sortByDesc]
    · rw [if_neg hm]
      dsimp only
      rw [verifyLoop_eq_find]
  · intro llm content bn
    unfold verify_official_site
    simp only [Bool.not_true, Bool.false_eq_true, if_false, Bool.and_eq_true,
      bne_iff_ne, ne_eq, Bool.not_eq_true', beq_iff_eq]
    constructor
    · rintro ⟨⟨hne, herr⟩, hoff⟩
      exact ⟨hne, herr, hoff⟩
    · rintro ⟨hne, herr, hoff⟩
      exact ⟨⟨hne, herr⟩, hoff⟩

/-- C8 (counterexample): brand `acme`; the only candidate whose domain
carries a brand token (`acme.com`, no block keyword) has path depth 8
and scores 1.0 (2 half-points), strictly below the token-less
candidate `foo.kr` with an official-marker title at the root, which
scores 3.0 (6 half-points) — refuting the claimed dominance. -/
theorem claim_C8_score_counterexample :
    tokenHit "acme" ⟨"", "https://acme.com/a/b/c/d/e/f/g/h", "", none⟩ = true ∧
    blockHit ⟨"", "https://acme.com/a/b/c/d/e/f/g/h", "", none⟩ = false ∧
    tokenHit "acme" ⟨"공식 사이트", "https://foo.kr", "", none⟩ = false ∧
    blockHit ⟨"공식 사이트", "https://foo.kr", "", none⟩ = false ∧
    scoreMeta "acme" ⟨"", "https://acme.com/a/b/c/d/e/f/g/h", "", none⟩ <
      scoreMeta "acme" ⟨"공식 사이트", "https://foo.kr", "", none⟩ := by
  refine ⟨by decide, by decide, by decide, by decide, by decide⟩

/-- Upper bound on a token-less candidate's score: at most 3.0
(6 half-points). -/
theorem scoreMeta_no_token_le (brand_name : String) (m : SearchItem)
    (ht : tokenHit brand_name m = false) : scoreMeta brand_name m ≤ 6 := by
  have hd : (0 : Int) ≤ (pathDepth m : Int) := Int.natCast_nonneg _
  simp only [scoreMeta, ht]
  split_ifs <;> (try exact False.elim (by assumption)) <;> omega

/-- Lower bound on a token-bearing, non-blocked candidate's score when
its path depth is at most 3: at least 3.5 (7 half-points). -/
theorem scoreMeta_token_ge (brand_name : String) (m : SearchItem)
    (ht : tokenHit brand_name m = true) (hb : blockHit m = false)
    (hd : pathDepth m ≤ 3) : 7 ≤ scoreMeta brand_name m := by
  have hd' : (pathDepth m : Int) ≤ 3 := by exact_mod_cast hd
  simp only [scoreMeta, ht, hb]
  split_ifs <;> (try exact False.elim (by assumption)) <;> omega

/-- C8 (amended): the dominance holds once the token-bearing
candidate's path depth is bounded (≤ 3) — its score is then at least
3.5 while every token-less candidate scores at most 3.0; without that
bound the unbounded −0.5·depth penalty can invert the order. -/
theorem claim_C8_token_dominance_amended (brand_name : String) (m1 m2 : SearchItem)
    (h1t : tokenHit brand_name m1 = true) (h1b : blockHit m1 = false)
    (h1d : pathDepth m1 ≤ 3) (h2t : tokenHit brand_name m2 = false) :
    scoreMeta brand_name m2 < scoreMeta brand_name m1 := by
  have h1 := scoreMeta_token_ge brand_name m1 h1t h1b h1d
  have h2 := scoreMeta_no_token_le brand_name m2 h2t
  omega

/-- Witness for the amended C8 at concrete candidates. -/
theorem claim_C8_token_dominance_amended_witness :
    scoreMeta "acme" ⟨"공식 사이트", "https://foo.kr", "", none⟩ <
      scoreMeta "acme" ⟨"", "https://acme.com", "", none⟩ :=
  claim_C8_token_dominance_amended "acme" ⟨"", "https://acme.com", "", none⟩
    ⟨"공식 사이트", "https://foo.kr", "", none⟩
    (by decide) (by decide) (by decide) (by decide)

/-- C1 (code bug): in the fatal-precondition case (no seed URL, no
keywords) the `ValueError` is raised before the local `brand_hint` is
bound, so the `finally` block — which unconditionally evaluates
`f"out/{brand_hint or 'default'}"` as the `.get` default — raises
`NameError`: nothing is persisted, nothing is returned, and only the
fatal progress event records the failure. On a normal input the same
pipeline persists the report to the brand-scoped directory. -/
theorem claim_C1_fatal_case_skips_persist :
    (run_research_v3 owX "" "교육" "학부모" [] [] 5 "ddg" 3).nameError = true ∧
    (run_research_v3 owX "" "교육" "학부모" [] [] 5 "ddg" 3).written = none ∧
    (run_research_v3 owX "" "교육" "학부모" [] [] 5 "ddg" 3).returned = none ∧
    (run_research_v3 owX "" "교육" "학부모" [] [] 5 "ddg" 3).events.contains
      ⟨"pipeline:fatal_error", [("error", "Seed URL 또는 키워드를 입력해야 합니다.")]⟩ = true ∧
    (run_research_v3 owX "https://brand.com" "교육" "학부모" [] [] 5 "ddg" 3).nameError = false ∧
    (run_research_v3 owX "https://brand.com" "교육" "학부모" [] [] 5 "ddg" 3).written =
      some ("out/brand",
        (run_research_v3 owX "https://brand.com" "교육" "학부모" [] [] 5 "ddg" 3).report) := by
  refine ⟨by decide, by decide, by decide, by decide, by decide, by decide⟩

/-- C2 (counterexample): four competitor names of which exactly one
(`B`) raises inside its sub-pipeline (seed discovery): the batch does
not skip `B` — `create_competitor_profile` absorbs the exception and
returns a default profile — so `competitor_profiles` has length 4, not
3; the failure is recorded as a progress event and the comparison table
is still generated. -/
theorem claim_C2_competitor_batch_counterexample :
    (run_research_v3 owX "https://brand.com" "ind" "aud" [] ["A", "B", "C", "D"] 5 "ddg"
      3).report.competitor_profiles.length = 4 ∧
    (run_research_v3 owX "https://brand.com" "ind" "aud" [] ["A", "B", "C", "D"] 5 "ddg"
      3).events.contains
      ⟨"competitor:url_error", [("name", "B"), ("error", "boom")]⟩ = true ∧
    (run_research_v3 owX "https://brand.com" "ind" "aud" [] ["A", "B", "C", "D"] 5 "ddg"
      3).report.competitor_comparison_table = "TBL" := by
  refine ⟨by decide, by decide, by decide⟩

/-- C2 (amended): for every non-fatal run, the competitor batch
produces exactly one profile per name of the resolved name list
(ontology-derived if non-empty, else the caller's list) — a competitor
whose sub-pipeline raises is not skipped: `create_competitor_profile`
catches the exception, emits a progress event naming the competitor and
the error, and returns the default profile (still carrying the
competitor's name), so the comparison synthesis runs over all of
them. -/
theorem claim_C2_competitor_batch_amended (w : OWorld) (seed_url industry audience : String)
    (keywords competitor_list : List String) (per_query_cap : Nat)
    (preferred_provider : String) (min_keep_threshold : Nat)
    (hseed : ¬ seed_url = "") :
    ((run_research_v3 w seed_url industry audience keywords competitor_list per_query_cap
        preferred_provider min_keep_threshold).report.competitor_profiles =
      (if !(run_research_v3 w seed_url industry audience keywords competitor_list per_query_cap
          preferred_provider min_keep_threshold).report.ontology.isEmpty
       then (run_research_v3 w seed_url industry audience keywords competitor_list per_query_cap
          preferred_provider min_keep_threshold).report.ontology
       else if !competitor_list.isEmpty then competitor_list else []).map
        (fun n => (create_competitor_profile (w.cw n) n).1)) ∧
    (∀ (cw : CWorld) (n e : String), cw.discover = .error e →
      ((create_competitor_profile cw n).2).contains
        ⟨"competitor:url_error", [("name", n), ("error", e)]⟩ = true ∧
      (create_competitor_profile cw n).1.brand = n) := by
  constructor
  · have hne : (seed_url == "") = false := beq_eq_false_iff_ne.mpr hseed
    unfold run_research_v3 resolveSeed
    simp only [hne, Bool.false_eq_true, if_false]
    unfold afterSeed
    dsimp only
    rw [(stageCompetitor_profiles w competitor_list _).2]
    rw [(stageCompetitor_profiles w competitor_list _).1]
  · intro cw n e h
    unfold create_competitor_profile
    rw [h]
    rcases haw : cw.awareness with e1 | aw <;> rcases him : cw.image with e2 | img <;>
      simp only [Id.run, haw, him] <;> (repeat' split) <;> simp [Id.run, haw, him]

/-- Witness for the amended C2 at a concrete run with four competitor
names, one of which fails during seed discovery. -/
theorem claim_C2_competitor_batch_amended_witness :
    (run_research_v3 owX "https://brand.com" "ind" "aud" [] ["A", "B", "C", "D"] 5 "ddg"
        3).report.competitor_profiles =
      (if !(run_research_v3 owX "https://brand.com" "ind" "aud" [] ["A", "B", "C", "D"] 5
          "ddg" 3).report.ontology.isEmpty
       then (run_research_v3 owX "https://brand.com" "ind" "aud" [] ["A", "B", "C", "D"] 5
          "ddg" 3).report.ontology
       else if !(["A", "B", "C", "D"] : List String).isEmpty then ["A", "B", "C", "D"] else []).map
        (fun n => (create_competitor_profile (owX.cw n) n).1) :=
  (claim_C2_competitor_batch_amended owX "https://brand.com" "ind" "aud" []
    ["A", "B", "C", "D"] 5 "ddg" 3 (by decide)).1

/-- Witness for the amended C3 on a concrete crawl: the trace is
duplicate free and the fetched off-origin URL still passes the
string-prefix check. -/
theorem claim_C3_crawler_invariants_witness :
    (crawl_site cwOriginCx "https://a.com" "ind" 30).2.Nodup ∧
    pyStartswith "https://a.community/x"
      (urlOrigin (dropRightWhileS "https://a.com" (fun c => c == '/'))) = true :=
  ⟨(claim_C3_crawler_invariants cwOriginCx "https://a.com" "ind" 30).1,
   (claim_C3_crawler_invariants cwOriginCx "https://a.com" "ind" 30).2.1
     "https://a.community/x" (by decide)⟩
